import Mathlib

/-!
Shallow embedding of the shard-membership and upgrade logic of the
mongodb-operator repository:

* `lib/charms/mongodb/v0/mongos.py` — `MongosConnection`
* `lib/charms/mongodb/v0/shards_interface.py` — `ShardingProvider`,
  `ConfigServerRequirer`
* `src/events/upgrade.py` — `MongoDBUpgrade`

Python dictionaries returned by `listShards` are modelled as lists of
`ShardInfo`; commands issued against the cluster are collected in output
lists so that "zero commands issued" is a provable statement; exceptions
are modelled with `Except` or explicit error fields.
-/

namespace MongodbOperator

/-- One entry of `listShards()["shards"]`: `_id`, `host`, and the optional
`draining` flag (absent flag modelled as `none`). -/
structure ShardInfo where
  id : String
  host : String
  draining : Option Bool
deriving Repr, DecidableEq

/-- `MongosConnection._is_any_draining(sc_status, ignore_shard)`:
`any(shard.get("draining", False) if shard["_id"] != ignore_shard else False
for shard in sc_status["shards"])`. -/
def is_any_draining (scStatus : List ShardInfo) (ignoreShard : String := "") : Bool :=
  scStatus.any fun shard =>
    if shard.id ≠ ignoreShard then shard.draining.getD false else false

/-- `MongosConnection.get_primary_shard`: the source is a stub that always
returns `False` ("there is no MongoDB command to retrieve primary shard"). -/
def get_primary_shard : Bool :=
  false

/-- Errors that `MongosConnection.remove_shard` can raise. -/
inductive RemoveError
  | notReady
  | removePrimaryShard
deriving Repr, DecidableEq

/-- Outcome of one `MongosConnection.remove_shard` call: the `removeShard`
commands issued against the router (by shard name) and the raised error,
if any. -/
structure RemoveResult where
  commands : List String
  error : Option RemoveError
deriving Repr, DecidableEq

/-- `MongosConnection.remove_shard(shard_name)` over a `listShards` snapshot:
first the concurrent-drain check (ignoring the target itself), then the
primary-shard check against the stubbed `get_primary_shard`, then the
`removeShard` command. -/
def remove_shard (scStatus : List ShardInfo) (shardName : String) : RemoveResult :=
  if is_any_draining scStatus shardName then
    { commands := [], error := some RemoveError.notReady }
  else if get_primary_shard then
    { commands := [], error := some RemoveError.removePrimaryShard }
  else
    { commands := [shardName], error := none }

/-- Errors that `MongosConnection._is_shard_draining` can raise. -/
inductive DrainError
  | shardNotInCluster
  | shardNotPlannedForRemoval
deriving Repr, DecidableEq

/-- `MongosConnection._is_shard_draining(shard_name)`: scan the `listShards`
snapshot; at the first entry whose `_id` matches, raise
`ShardNotPlannedForRemovalError` when the `draining` flag is absent and
otherwise return the flag; raise `ShardNotInClusterError` when no entry
matches. -/
def is_shard_draining : List ShardInfo → String → Except DrainError Bool
  | [], _ => Except.error DrainError.shardNotInCluster
  | s :: rest, shardName =>
    if s.id = shardName then
      match s.draining with
      | none => Except.error DrainError.shardNotPlannedForRemoval
      | some b => Except.ok b
    else is_shard_draining rest shardName

/-- Python `str.split(sep)` for a one-character separator, written over the
character list so that it evaluates inside the kernel. -/
def split_char (c : Char) (s : String) : List String :=
  (s.data.splitOn c).map String.mk

/-- Python `int(...)` on a decimal string, over the character list so that it
evaluates inside the kernel. -/
def parse_nat (s : String) : Nat :=
  s.data.foldl (fun acc c => acc * 10 + (c.toNat - 48)) 0

/-- `MongosConnection._hostname_from_hostport`: `hostname.split("/")[0]`. -/
def hostname_from_hostport (hostname : String) : String :=
  (split_char '/' hostname).head!

/-- `MongosConnection.get_shard_members()`: the set of shard names parsed
from the `host` field of each `listShards` entry (Python builds a `set`;
modelled as the deduplicated list). -/
def get_shard_members (scStatus : List ShardInfo) : List String :=
  (scStatus.map fun member => hostname_from_hostport member.host).dedup

/-- A live cluster state for the safety claims: the `listShards` snapshot
together with the ground-truth primary shard, which the code cannot query
(its `get_primary_shard` is a stub). -/
structure ClusterState where
  shards : List ShardInfo
  primaryShard : Option String
deriving Repr, DecidableEq

/-! ## shards_interface.py — ShardingProvider -/

/-- `FORBIDDEN_REMOVAL_ERR_CODE = 20`. -/
def FORBIDDEN_REMOVAL_ERR_CODE : Int := 20

/-- A config-server relation to one shard application: its relation id, the
application name (`relation.app.name`, i.e. the shard name) and the
private addresses of its units. -/
structure ShardRelation where
  relId : Nat
  appName : String
  hosts : List String
deriving Repr, DecidableEq

/-- `ShardingProvider._get_shards_from_relations(departed_shard_id)`: the set
of relation app names whose relation id differs from the departed one
(Python builds a `set`; modelled as the deduplicated list). -/
def get_shards_from_relations (relations : List ShardRelation)
    (departed : Option Nat) : List String :=
  ((relations.filter fun r => some r.relId ≠ departed).map fun r => r.appName).dedup

/-- `ShardingProvider._get_shard_hosts(shard_name)`: the hosts of the first
relation whose app name matches (Python falls off the loop returning `None`
when no relation matches; that case is unreachable for names drawn from the
relations and is modelled as `[]`). -/
def get_shard_hosts (relations : List ShardRelation) (shardName : String) :
    List String :=
  match relations.find? fun r => r.appName = shardName with
  | some r => r.hosts
  | none => []

/-- `ShardingProvider.add_shards(departed_shard_id)`: for each relation shard
name missing from the cluster, skip it when its host list is empty, otherwise
call `MongosConnection.add_shard`, whose own first step re-checks membership
in `get_shard_members()` over the same snapshot and skips silently when
present. Returns the `addShard` commands issued, as (name, hosts) pairs. -/
def add_shards (relations : List ShardRelation) (scStatus : List ShardInfo)
    (departed : Option Nat) : List (String × List String) :=
  let clusterShards := get_shard_members scStatus
  let relationShards := get_shards_from_relations relations departed
  (relationShards.filter fun n => n ∉ clusterShards).filterMap fun shard =>
    let hosts := get_shard_hosts relations shard
    if hosts.length = 0 then none
    else if shard ∈ get_shard_members scStatus then none
    else some (shard, hosts)

/-- Outcome of `mongo.remove_shard(shard)` followed by the
`shard in mongo.get_shard_members()` re-check inside
`ShardingProvider.remove_shards`. -/
inductive RemoveCmdOutcome
  | removed
  | stillDraining
  | opFailure (code : Int)
deriving Repr, DecidableEq

/-- An exception propagating out of the `remove_shards` loop. -/
inductive PassError
  | notDrained
  | operationFailure (code : Int)
deriving Repr, DecidableEq

/-- The loop of `ShardingProvider.remove_shards` over the extra shards:
each target is removed in turn; a still-listed shard raises
`NotDrainedError` and an `OperationFailure` propagates, both ending the
loop. Returns the targets for which a `removeShard` command was issued, and
the exception, if any. -/
def remove_shards_run (targets : List String)
    (exec : String → RemoveCmdOutcome) : List String × Option PassError :=
  match targets with
  | [] => ([], none)
  | t :: rest =>
    match exec t with
    | RemoveCmdOutcome.opFailure c => ([t], some (PassError.operationFailure c))
    | RemoveCmdOutcome.stillDraining => ([t], some PassError.notDrained)
    | RemoveCmdOutcome.removed =>
      let p := remove_shards_run rest exec
      (t :: p.1, p.2)

/-- How `ShardingProvider._on_relation_event` ends. -/
inductive HandlerResult
  | completed
  | deferred
  | raisedRemoveLastShard
deriving Repr, DecidableEq

/-- The `try/except` of `ShardingProvider._on_relation_event` around the
removal pass: `NotDrainedError` defers, `OperationFailure` with
`FORBIDDEN_REMOVAL_ERR_CODE` raises `RemoveLastShardError`, any other
`OperationFailure` (and `PyMongoError`/`NotReadyError`) defers. Returns the
handler outcome and the `removeShard` targets attempted in the pass. -/
def on_relation_event (targets : List String)
    (exec : String → RemoveCmdOutcome) : HandlerResult × List String :=
  let p := remove_shards_run targets exec
  match p.2 with
  | none => (HandlerResult.completed, p.1)
  | some PassError.notDrained => (HandlerResult.deferred, p.1)
  | some (PassError.operationFailure c) =>
    (if c = FORBIDDEN_REMOVAL_ERR_CODE then HandlerResult.raisedRemoveLastShard
     else HandlerResult.deferred, p.1)

/-! ## shards_interface.py — ConfigServerRequirer.drained -/

/-- A Python value as returned by `ConfigServerRequirer.drained`: the
annotation promises `bool`, but the non-leader branch returns a string. -/
inductive PyVal
  | bool (b : Bool)
  | str (s : String)
deriving Repr, DecidableEq

/-- `json.dumps` restricted to the values `drained` feeds it. -/
def json_dumps : PyVal → String
  | PyVal.bool true => "true"
  | PyVal.bool false => "false"
  | PyVal.str s => "\"" ++ s ++ "\""

/-- Python truthiness of such a value (`bool(v)`). -/
def py_truthy : PyVal → Bool
  | PyVal.bool b => b
  | PyVal.str s => s.length != 0

/-- The unit-local context `ConfigServerRequirer.drained` reads:
its role, leadership, the peer databag entry `app_peer_data.get("drained")`
(peer databag values are strings), and the `listShards` snapshot the leader
branch would query. -/
structure DrainedCtx where
  isShardRole : Bool
  isLeader : Bool
  peerDrained : Option String
  scStatus : List ShardInfo
deriving Repr, DecidableEq

/-- `ConfigServerRequirer.drained(mongos_hosts, shard_name)`. The second
component records whether a `MongosConnection` to the cluster was opened. -/
def drained (ctx : DrainedCtx) (shardName : String) :
    Except DrainError PyVal × Bool :=
  if ¬ ctx.isShardRole then (Except.ok (PyVal.bool false), false)
  else if ¬ ctx.isLeader then
    (Except.ok (PyVal.str (json_dumps
      (match ctx.peerDrained with
       | some s => PyVal.str s
       | none => PyVal.bool false))), false)
  else
    match is_shard_draining ctx.scStatus shardName with
    | Except.error e => (Except.error e, true)
    | Except.ok draining => (Except.ok (PyVal.bool (!draining)), true)

/-! ## src/events/upgrade.py — MongoDBUpgrade -/

/-- `int(unit.name.split("/")[-1])`. -/
def unit_id (name : String) : Nat :=
  parse_nat (split_char '/' name).getLast!

/-- The loop of `MongoDBUpgrade.get_replica_set_upgrade_stack`: append the id
of every non-primary unit, remembering the id of the unit whose name is the
primary. -/
def build_stack_fold (units : List String) (primary : String) :
    Option Nat × List Nat :=
  units.foldl
    (fun acc u =>
      if u = primary then (some (unit_id u), acc.2)
      else (acc.1, acc.2 ++ [unit_id u]))
    (none, [])

/-- `MongoDBUpgrade.get_replica_set_upgrade_stack()`: the loop above followed
by `upgrade_stack.insert(0, primary_unit_id)`. Elements are `Option Nat`
because the inserted `primary_unit_id` is `None` when no unit name matched
the primary. -/
def get_replica_set_upgrade_stack (units : List String) (primary : String) :
    List (Option Nat) :=
  let p := build_stack_fold units primary
  p.1 :: p.2.map some

/-- The exception of `step_down_primary_and_wait_reelection`. -/
inductive UpgradeError
  | failedToElectNewPrimary
deriving Repr, DecidableEq

/-- The `tenacity.Retrying(stop=stop_after_attempt(30), wait_fixed(1),
reraise=True)` loop of `step_down_primary_and_wait_reelection`: attempt `i`
reads `observed i` as `self.charm.primary` and the body raises
`FailedToElectNewPrimaryError` when it differs from `old_primary`; a raising
attempt is retried, and once the 30 attempts are exhausted the last
exception is reraised.  `fuel` counts the attempts still allowed. -/
def step_down_retry (oldPrimary : String) (observed : Nat → String) :
    Nat → Nat → Except UpgradeError Unit
  | 0, _ => Except.error UpgradeError.failedToElectNewPrimary
  | fuel + 1, i =>
    if observed i ≠ oldPrimary then step_down_retry oldPrimary observed fuel (i + 1)
    else Except.ok ()

/-- `MongoDBUpgrade.step_down_primary_and_wait_reelection` after the
`step_down_primary()` command, as a function of the primary observed at each
attempt. -/
def step_down_primary_and_wait_reelection (oldPrimary : String)
    (observed : Nat → String) : Except UpgradeError Unit :=
  step_down_retry oldPrimary observed 30 0

/-- Exceptions of `MongoDBUpgrade.is_excepted_write_on_replica`:
`query[0]` on an empty cursor raises `IndexError`; a document without the
`write_value` key raises `KeyError`. -/
inductive ReadError
  | indexError
  | keyError
deriving Repr, DecidableEq

/-- `MongoDBUpgrade.is_excepted_write_on_replica(host, collection, expected)`:
read `query[0][WRITE_KEY]` from the secondary's scratch collection (documents
modelled by their optional `write_value` field) and compare it with the
expected write value. -/
def is_excepted_write_on_replica (docs : List (Option String))
    (expected : String) : Except ReadError Bool :=
  match docs with
  | [] => Except.error ReadError.indexError
  | none :: _ => Except.error ReadError.keyError
  | some v :: _ => Except.ok (v = expected)

/-- The secondary loop of `MongoDBUpgrade.is_replica_set_able_read_write`
after the initial write: walk the secondaries in order; a successful read of
a mismatching value calls `clear_tmp_collection` and returns `False`; a
raising read propagates out of the method with no cleanup; when every
secondary matches, `clear_tmp_collection` runs and `True` is returned. The
`Bool` component records whether `clear_tmp_collection` ran before exiting. -/
def is_replica_set_able_read_write (writeValue : String) :
    List (List (Option String)) → Except ReadError Bool × Bool
  | [] => (Except.ok true, true)
  | docs :: rest =>
    match is_excepted_write_on_replica docs writeValue with
    | Except.error e => (Except.error e, false)
    | Except.ok false => (Except.ok false, true)
    | Except.ok true => is_replica_set_able_read_write writeValue rest

/-- The externally visible steps of `MongoDBUpgrade._on_upgrade_granted`. -/
inductive UpgradeAction
  | stopServices
  | installSnap
  | setUnitFailed
  | stepDownPrimary
  | restartServices
  | postUpgradeCheck
  | setUnitCompleted
  | emitUpgradeChanged
deriving Repr, DecidableEq

/-- The branch conditions `_on_upgrade_granted` meets: whether
`install_snap_packages` succeeds, whether this unit is the primary, whether
the step-down helper raises, whether `post_upgrade_check` eventually passes,
and leadership. -/
structure GrantedCtx where
  installOk : Bool
  unitIsPrimary : Bool
  stepDownRaises : Bool
  postCheckOk : Bool
  isLeader : Bool
deriving Repr, DecidableEq

/-- `MongoDBUpgrade._on_upgrade_granted(event)` as the ordered trace of steps
it performs: stop services, attempt the snap install (a `SnapError` marks
the unit failed and returns), step down when primary (an uncaught
`FailedToElectNewPrimaryError` propagates), restart, run the post-upgrade
check, then mark completed (re-emitting on the leader) or failed. -/
def on_upgrade_granted (c : GrantedCtx) : List UpgradeAction :=
  UpgradeAction.stopServices :: UpgradeAction.installSnap ::
    (if c.installOk = false then [UpgradeAction.setUnitFailed]
     else
       (if c.unitIsPrimary then [UpgradeAction.stepDownPrimary] else []) ++
         (if c.unitIsPrimary && c.stepDownRaises then []
          else
            UpgradeAction.restartServices :: UpgradeAction.postUpgradeCheck ::
              (if c.postCheckOk then
                 UpgradeAction.setUnitCompleted ::
                   (if c.isLeader then [UpgradeAction.emitUpgradeChanged] else [])
               else [UpgradeAction.setUnitFailed])))

/-! ## Theorems -/

/-- A concrete live cluster: two shards, neither draining, whose ground-truth
primary shard is `shard-one` (a fact the code cannot observe, since its
`get_primary_shard` is a stub). -/
def exCluster : ClusterState :=
  { shards := [{ id := "shard-one", host := "shard-one/host1:27018", draining := none },
               { id := "shard-two", host := "shard-two/host2:27018", draining := none }],
    primaryShard := some "shard-one" }

/-- C1: the claim states that `remove_shard` never issues a `removeShard`
command whose target equals the current primary shard and raises
`RemovePrimaryShardError` for such a target. The code cannot uphold this:
`get_primary_shard` is a stub returning `false`, so on a cluster whose
primary shard is `shard-one`, removing `shard-one` issues the `removeShard`
command and raises nothing. -/
theorem remove_shard_issues_remove_for_primary :
    exCluster.primaryShard = some "shard-one" ∧
    get_primary_shard = false ∧
    remove_shard exCluster.shards "shard-one" =
      { commands := ["shard-one"], error := none } := by
  decide

/-- C4: the claim states that `step_down_primary_and_wait_reelection` raises
`FailedToElectNewPrimaryError` exactly when no primary different from the old
one is observed within the 30 attempts. The code's retry body is inverted: it
raises when the observed primary differs from the old one, so a run in which
a new primary `mongodb/1` is observed at every attempt exhausts the retries
and raises, while a run in which the primary never changes returns normally
at the first attempt. -/
theorem step_down_reelection_inverted :
    step_down_primary_and_wait_reelection "mongodb/0" (fun _ => "mongodb/1") =
      Except.error UpgradeError.failedToElectNewPrimary ∧
    step_down_primary_and_wait_reelection "mongodb/0" (fun _ => "mongodb/0") =
      Except.ok () :=
  ⟨rfl, rfl⟩

/-- C10: when the snap install fails, `_on_upgrade_granted` stops services,
attempts the install, marks the unit failed and returns: no restart, no
step-down and no post-upgrade check appear in the trace. -/
theorem upgrade_granted_install_failure_halts (c : GrantedCtx)
    (h : c.installOk = false) :
    on_upgrade_granted c =
      [UpgradeAction.stopServices, UpgradeAction.installSnap,
       UpgradeAction.setUnitFailed] ∧
    UpgradeAction.restartServices ∉ on_upgrade_granted c ∧
    UpgradeAction.stepDownPrimary ∉ on_upgrade_granted c ∧
    UpgradeAction.postUpgradeCheck ∉ on_upgrade_granted c := by
  simp [on_upgrade_granted, h]

/-- Witness for C10 at a concrete context whose install fails. -/
theorem upgrade_granted_install_failure_halts_witness :
    on_upgrade_granted
        { installOk := false, unitIsPrimary := true, stepDownRaises := false,
          postCheckOk := true, isLeader := true } =
      [UpgradeAction.stopServices, UpgradeAction.installSnap,
       UpgradeAction.setUnitFailed] :=
  (upgrade_granted_install_failure_halts
    { installOk := false, unitIsPrimary := true, stepDownRaises := false,
      postCheckOk := true, isLeader := true } rfl).1

/-- `json_dumps` never yields the empty string. -/
theorem json_dumps_length_pos (v : PyVal) : (json_dumps v).length ≠ 0 := by
  cases v with
  | bool b => cases b <;> decide
  | str s =>
    have h1 : ("\"" : String).length = 1 := rfl
    simp only [json_dumps, String.length_append, h1]
    omega

/-- C9: on a shard-role unit that is not the leader, `drained` opens no
connection to the cluster and returns `json.dumps` applied to the peer-data
`drained` value; the result is a non-empty string, hence truthy in Python,
whatever the stored drained state is. -/
theorem drained_non_leader_truthy_string (ctx : DrainedCtx) (name : String)
    (h1 : ctx.isShardRole = true) (h2 : ctx.isLeader = false) :
    (drained ctx name).2 = false ∧
    (drained ctx name).1 = Except.ok (PyVal.str (json_dumps
      (match ctx.peerDrained with
       | some s => PyVal.str s
       | none => PyVal.bool false))) ∧
    py_truthy (PyVal.str (json_dumps
      (match ctx.peerDrained with
       | some s => PyVal.str s
       | none => PyVal.bool false))) = true := by
  refine ⟨?_, ?_, ?_⟩
  · simp [drained, h1, h2]
  · simp [drained, h1, h2]
  · simp [py_truthy]
    exact json_dumps_length_pos _

/-- Witness for C9: a non-leader shard unit whose stored drained state is the
string `"false"` still gets the truthy string `"\"false\""`. -/
theorem drained_non_leader_truthy_string_witness :
    (drained { isShardRole := true, isLeader := false,
               peerDrained := some "false", scStatus := [] } "shard-one").2 = false ∧
    (drained { isShardRole := true, isLeader := false,
               peerDrained := some "false", scStatus := [] } "shard-one").1 =
      Except.ok (PyVal.str "\"false\"") :=
  ⟨(drained_non_leader_truthy_string _ "shard-one" rfl rfl).1,
   (drained_non_leader_truthy_string _ "shard-one" rfl rfl).2.1⟩

/-- `is_any_draining` holds exactly when some shard other than the ignored
one carries `draining=true`. -/
theorem is_any_draining_iff (sc : List ShardInfo) (ignore : String) :
    is_any_draining sc ignore = true ↔
      ∃ s ∈ sc, s.id ≠ ignore ∧ s.draining.getD false = true := by
  simp only [is_any_draining, List.any_eq_true]
  constructor
  · rintro ⟨s, hs, hcond⟩
    by_cases h : s.id = ignore
    · simp [h] at hcond
    · exact ⟨s, hs, h, by simpa [h] using hcond⟩
  · rintro ⟨s, hs, hne, hdr⟩
    exact ⟨s, hs, by simp [hne, hdr]⟩

/-- C5: when any shard other than the removal target is draining,
`remove_shard` raises `NotReadyError` with zero `removeShard` commands
issued; when no other shard is draining — even if the target itself is —
that error is not raised and the `removeShard` command for the target is
issued. -/
theorem remove_shard_concurrent_drain (sc : List ShardInfo) (target : String) :
    ((∃ s ∈ sc, s.id ≠ target ∧ s.draining.getD false = true) →
      remove_shard sc target =
        { commands := [], error := some RemoveError.notReady }) ∧
    ((∀ s ∈ sc, s.id ≠ target → s.draining.getD false = false) →
      (remove_shard sc target).commands = [target] ∧
      (remove_shard sc target).error ≠ some RemoveError.notReady) := by
  constructor
  · intro hx
    have hd : is_any_draining sc target = true :=
      (is_any_draining_iff sc target).mpr hx
    simp [remove_shard, hd]
  · intro hall
    have hnot : ¬ is_any_draining sc target = true := by
      intro hc
      obtain ⟨s, hs, hne, hdr⟩ := (is_any_draining_iff sc target).mp hc
      exact absurd hdr (by simp [hall s hs hne])
    have hd : is_any_draining sc target = false := Bool.eq_false_iff.mpr hnot
    simp [remove_shard, hd, get_primary_shard]

/-- Witness for C5: with `shard-a` draining, removing `shard-b` raises
`NotReadyError` and issues no command; the target `shard-b` draining alone
does not trigger the error. -/
theorem remove_shard_concurrent_drain_witness :
    remove_shard
        [{ id := "shard-a", host := "shard-a/h1:27018", draining := some true },
         { id := "shard-b", host := "shard-b/h2:27018", draining := none }]
        "shard-b" =
      { commands := [], error := some RemoveError.notReady } :=
  (remove_shard_concurrent_drain _ "shard-b").1 (by decide)

/-- The removal loop stops at its first exception: the attempted targets are
an initial segment of the extra shards ending at the failing target, and
every earlier attempt succeeded. -/
theorem remove_shards_run_stops (targets : List String)
    (exec : String → RemoveCmdOutcome) (c : Int)
    (h : (remove_shards_run targets exec).2 =
      some (PassError.operationFailure c)) :
    ∃ before failT,
      (remove_shards_run targets exec).1 = before ++ [failT] ∧
      (∀ t ∈ before, exec t = RemoveCmdOutcome.removed) ∧
      exec failT = RemoveCmdOutcome.opFailure c ∧
      before ++ [failT] = targets.take (before.length + 1) := by
  induction targets with
  | nil => simp [remove_shards_run] at h
  | cons t rest ih =>
    cases hx : exec t with
    | removed =>
      have h2 : (remove_shards_run rest exec).2 =
          some (PassError.operationFailure c) := by
        simpa [remove_shards_run, hx] using h
      obtain ⟨before, failT, e1, e2, e3, e4⟩ := ih h2
      refine ⟨t :: before, failT, ?_, ?_, e3, ?_⟩
      · simp [remove_shards_run, hx, e1]
      · intro u hu
        rcases List.mem_cons.mp hu with rfl | hu2
        · exact hx
        · exact e2 u hu2
      · simp only [List.cons_append, List.length_cons, List.take_succ_cons]
        rw [e4]
    | stillDraining => simp [remove_shards_run, hx] at h
    | opFailure c2 =>
      have hc : c2 = c := by
        have := h
        simp [remove_shards_run, hx] at this
        exact this
      subst hc
      exact ⟨[], t, by simp [remove_shards_run, hx], by simp, hx, by simp⟩

/-- C8: when the removal pass fails with `FORBIDDEN_REMOVAL_ERR_CODE` (20),
`_on_relation_event` raises `RemoveLastShardError` instead of deferring, and
the pass issued no remove attempt beyond the failing one. -/
theorem remove_last_shard_error_fatal (targets : List String)
    (exec : String → RemoveCmdOutcome)
    (h : (remove_shards_run targets exec).2 =
      some (PassError.operationFailure FORBIDDEN_REMOVAL_ERR_CODE)) :
    (on_relation_event targets exec).1 = HandlerResult.raisedRemoveLastShard ∧
    (on_relation_event targets exec).1 ≠ HandlerResult.deferred ∧
    ∃ before failT,
      (on_relation_event targets exec).2 = before ++ [failT] ∧
      (∀ t ∈ before, exec t = RemoveCmdOutcome.removed) ∧
      exec failT = RemoveCmdOutcome.opFailure FORBIDDEN_REMOVAL_ERR_CODE ∧
      before ++ [failT] = targets.take (before.length + 1) := by
  have hr := remove_shards_run_stops targets exec FORBIDDEN_REMOVAL_ERR_CODE h
  refine ⟨?_, ?_, ?_⟩
  · simp [on_relation_event, h]
  · simp [on_relation_event, h]
  · simpa [on_relation_event, h] using hr

/-- Witness for C8: a single extra shard whose removal fails with code 20
makes the handler raise `RemoveLastShardError`. -/
theorem remove_last_shard_error_fatal_witness :
    (on_relation_event ["shard-one"]
        (fun _ => RemoveCmdOutcome.opFailure 20)).1 =
      HandlerResult.raisedRemoveLastShard :=
  (remove_last_shard_error_fatal _ _ (by decide)).1

/-- A leader shard unit whose cluster lists the shard with `draining=false`. -/
def exDrainCtx : DrainedCtx :=
  { isShardRole := true, isLeader := true, peerDrained := none,
    scStatus := [{ id := "shard-a", host := "shard-a/h1:27018",
                   draining := some false }] }

/-- C3 counterexample: the claim says a shard present with `draining=false`
makes the drained check raise `ShardNotPlannedForRemovalError`; the code
instead returns the flag, so `drained` yields `true` (not draining) without
raising. -/
theorem drained_false_flag_counterexample :
    drained exDrainCtx "shard-a" = (Except.ok (PyVal.bool true), true) ∧
    (drained exDrainCtx "shard-a").1 ≠
      Except.error DrainError.shardNotPlannedForRemoval := by
  refine ⟨rfl, ?_⟩
  intro h
  have h2 : (Except.ok (PyVal.bool true) : Except DrainError PyVal) =
      Except.error DrainError.shardNotPlannedForRemoval := h
  exact Except.noConfusion h2

/-- `_is_shard_draining` in terms of the first matching `listShards` entry. -/
theorem is_shard_draining_eq_find (sc : List ShardInfo) (name : String) :
    is_shard_draining sc name =
      match sc.find? (fun s => s.id = name) with
      | none => Except.error DrainError.shardNotInCluster
      | some s =>
        match s.draining with
        | none => Except.error DrainError.shardNotPlannedForRemoval
        | some b => Except.ok b := by
  induction sc with
  | nil => rfl
  | cons s rest ih =>
    by_cases h : s.id = name
    · simp [is_shard_draining, h, List.find?_cons]
    · simp [is_shard_draining, h, List.find?_cons, ih]

/-- C3 amended: on the leader of a shard unit, `drained` returns `false` iff
the shard is listed with `draining=true`; returns `true` iff listed with
`draining=false`; raises `ShardNotPlannedForRemovalError` iff listed with
the `draining` flag absent; and when the shard is absent from the
`listShards` output it raises `ShardNotInClusterError` rather than
returning `true` (the relation-broken caller treats that exception as fully
drained). -/
theorem drained_leader_characterization (sc : List ShardInfo)
    (pd : Option String) (name : String) :
    drained (DrainedCtx.mk true true pd sc) name =
      match sc.find? (fun s => s.id = name) with
      | none => (Except.error DrainError.shardNotInCluster, true)
      | some s =>
        match s.draining with
        | none => (Except.error DrainError.shardNotPlannedForRemoval, true)
        | some b => (Except.ok (PyVal.bool (!b)), true) := by
  have hd : drained (DrainedCtx.mk true true pd sc) name =
      match is_shard_draining sc name with
      | Except.error e => (Except.error e, true)
      | Except.ok draining => (Except.ok (PyVal.bool (!draining)), true) := by
    simp [drained]
  rw [hd, is_shard_draining_eq_find]
  rcases hf : sc.find? (fun s => s.id = name) with _ | s
  · simp [hf]
  · rcases hb : s.draining with _ | b <;> simp [hf, hb]

/-- C7 counterexample: a first secondary whose scratch collection is empty —
a secondary that does not contain the written value — makes the probe raise
`IndexError` instead of returning `false`, and the scratch collection is not
dropped on that exit path. -/
theorem probe_empty_secondary_counterexample :
    is_replica_set_able_read_write "value-1" [[]] =
      (Except.error ReadError.indexError, false) ∧
    is_replica_set_able_read_write "value-1" [[]] ≠
      ((Except.ok false : Except ReadError Bool), true) := by
  refine ⟨rfl, ?_⟩
  intro h
  have h2 : ((Except.error ReadError.indexError : Except ReadError Bool), false) =
      ((Except.ok false : Except ReadError Bool), true) := h
  simp at h2

/-- The outcome of reading the first secondary whose read is not a
successful match, if any. -/
def first_failing_read (v : String) (secs : List (List (Option String))) :
    Option (Except ReadError Bool) :=
  (secs.map fun docs => is_excepted_write_on_replica docs v).find? fun r =>
    match r with
    | Except.ok true => false
    | _ => true

/-- C7 amended: the probe returns `false`, after dropping the scratch
collection, exactly when the first non-matching secondary read succeeds with
a mismatching value; it returns `true` after dropping the collection when
every secondary matches; but when the first non-matching secondary read
raises (e.g. its scratch collection is empty because the write has not
replicated), the exception propagates and the scratch collection is not
dropped. -/
theorem probe_cleanup_characterization (v : String)
    (secs : List (List (Option String))) :
    is_replica_set_able_read_write v secs =
      match first_failing_read v secs with
      | none => (Except.ok true, true)
      | some (Except.ok b) => (Except.ok b, true)
      | some (Except.error e) => (Except.error e, false) := by
  induction secs with
  | nil => rfl
  | cons docs rest ih =>
    rcases hr : is_excepted_write_on_replica docs v with e | b
    · simp [is_replica_set_able_read_write, first_failing_read,
        List.find?_cons, hr]
    · cases b
      · simp [is_replica_set_able_read_write, first_failing_read,
          List.find?_cons, hr]
      · simpa [is_replica_set_able_read_write, first_failing_read,
          List.find?_cons, hr] using ih

/-- When every produced pair keeps its source element as first component,
`filterMap` over a duplicate-free list yields duplicate-free first
components. -/
theorem filterMap_fst_nodup {α β : Type} (f : α → Option (α × β))
    (L : List α) (hf : ∀ a p, f a = some p → p.1 = a) (hL : L.Nodup) :
    ((L.filterMap f).map Prod.fst).Nodup := by
  induction L with
  | nil => simp
  | cons a rest ih =>
    have hrest := List.nodup_cons.mp hL
    cases hfa : f a with
    | none =>
      simp only [List.filterMap_cons, hfa]
      exact ih hrest.2
    | some p =>
      have hp := hf a p hfa
      simp only [List.filterMap_cons, hfa, List.map_cons, List.nodup_cons]
      refine ⟨?_, ih hrest.2⟩
      intro hx
      obtain ⟨q, hq, hq1⟩ := List.mem_map.mp hx
      obtain ⟨b, hb, hfb⟩ := List.mem_filterMap.mp hq
      have hqb : q.1 = b := hf b q hfb
      rw [hp] at hq1
      rw [hqb] at hq1
      rw [hq1] at hb
      exact hrest.1 hb

/-- C6: `add_shards` issues exactly one `addShard` command per relation shard
name missing from the cluster whose host list is non-empty — issued names
are duplicate-free and a (name, hosts) command is issued iff the name is
desired, absent from the cluster, and its host list is non-empty — and it
issues nothing when every desired name is already in the cluster. -/
theorem add_shards_exactly_missing (relations : List ShardRelation)
    (scStatus : List ShardInfo) (departed : Option Nat) :
    ((add_shards relations scStatus departed).map Prod.fst).Nodup ∧
    (∀ n h, (n, h) ∈ add_shards relations scStatus departed ↔
      (n ∈ get_shards_from_relations relations departed ∧
       n ∉ get_shard_members scStatus ∧
       h = get_shard_hosts relations n ∧ h ≠ [])) ∧
    ((∀ n ∈ get_shards_from_relations relations departed,
        n ∈ get_shard_members scStatus) →
      add_shards relations scStatus departed = []) := by
  refine ⟨?_, ?_, ?_⟩
  · apply filterMap_fst_nodup
    · intro a p hfa
      by_cases h0 : (get_shard_hosts relations a).length = 0
      · simp [h0] at hfa
      · by_cases hmem : a ∈ get_shard_members scStatus
        · simp [h0, hmem] at hfa
        · simp [h0, hmem] at hfa
          exact (congrArg Prod.fst hfa).symm
    · exact List.Nodup.filter _ (List.nodup_dedup _)
  · intro n h
    constructor
    · intro hmem
      obtain ⟨a, haL, hfa⟩ := List.mem_filterMap.mp hmem
      have haD : a ∈ get_shards_from_relations relations departed :=
        List.mem_of_mem_filter haL
      have haA : a ∉ get_shard_members scStatus := by
        have := List.of_mem_filter haL
        simpa using this
      by_cases h0 : (get_shard_hosts relations a).length = 0
      · simp [h0] at hfa
      · simp [h0, haA] at hfa
        obtain ⟨rfl, rfl⟩ := hfa
        refine ⟨haD, haA, rfl, ?_⟩
        intro hnil
        rw [hnil] at h0
        exact h0 rfl
    · rintro ⟨hD, hA, rfl, hne⟩
      apply List.mem_filterMap.mpr
      refine ⟨n, List.mem_filter.mpr ⟨hD, by simpa using hA⟩, ?_⟩
      have h0 : ¬ (get_shard_hosts relations n).length = 0 := by
        intro h0
        exact hne (List.length_eq_zero.mp h0)
      simp [h0, hA]
  · intro hsub
    have hL : (get_shards_from_relations relations departed).filter
        (fun n => n ∉ get_shard_members scStatus) = [] := by
      apply List.filter_eq_nil_iff.mpr
      intro a ha
      simpa using hsub a ha
    simp only [add_shards]
    rw [hL]
    rfl

/-- Witness for C6 (no-op direction): with both relation shards already in
the cluster, zero `addShard` commands are issued. -/
theorem add_shards_exactly_missing_witness :
    add_shards
        [{ relId := 1, appName := "s1", hosts := ["h1"] },
         { relId := 2, appName := "s2", hosts := ["h2"] }]
        [{ id := "s1", host := "s1/h1:27018", draining := none },
         { id := "s2", host := "s2/h2:27018", draining := none }]
        none = [] :=
  (add_shards_exactly_missing _ _ none).2.2 (by decide)

/-- The loop of `get_replica_set_upgrade_stack` from any accumulator: the
recorded primary id is the primary's id when some unit name matches, and the
appended stack is the ids of the non-primary units in iteration order. -/
theorem build_stack_fold_general (primary : String) (units : List String) :
    ∀ p : Option Nat × List Nat,
      units.foldl
        (fun acc u =>
          if u = primary then (some (unit_id u), acc.2)
          else (acc.1, acc.2 ++ [unit_id u])) p =
      ((if primary ∈ units then some (unit_id primary) else p.1),
       p.2 ++ (units.filter fun u => u ≠ primary).map unit_id) := by
  induction units with
  | nil =>
    intro p
    simp
  | cons u rest ih =>
    intro p
    by_cases h : u = primary
    · subst h
      simp [List.foldl_cons, ih, List.filter_cons]
    · simp [List.foldl_cons, h, ih, List.filter_cons, Ne.symm h,
        List.append_assoc]

/-- With pairwise-distinct unit ids, the primary's id does not occur among
the ids of the non-primary units. -/
theorem unit_id_notin_filtered :
    ∀ (units : List String) (primary : String),
      primary ∈ units → (units.map unit_id).Nodup →
      unit_id primary ∉ (units.filter fun u => u ≠ primary).map unit_id := by
  intro units primary
  induction units with
  | nil =>
    intro hmem
    cases hmem
  | cons u rest ih =>
    intro hmem h2
    rw [List.map_cons] at h2
    have h2c := List.nodup_cons.mp h2
    by_cases hu : u = primary
    · subst hu
      have hdrop : ((u :: rest).filter fun v => v ≠ u) =
          rest.filter fun v => v ≠ u := by
        simp [List.filter_cons]
      rw [hdrop]
      intro hx
      obtain ⟨a, haf, hae⟩ := List.mem_map.mp hx
      have haR : a ∈ rest := List.mem_of_mem_filter haf
      exact h2c.1 (List.mem_map.mpr ⟨a, haR, hae⟩)
    · have hmemR : primary ∈ rest := by
        rcases List.mem_cons.mp hmem with h3 | h3
        · exact absurd h3.symm hu
        · exact h3
      have hkeep : ((u :: rest).filter fun v => v ≠ primary) =
          u :: (rest.filter fun v => v ≠ primary) := by
        simp [List.filter_cons, hu]
      rw [hkeep, List.map_cons]
      intro hx
      rcases List.mem_cons.mp hx with h3 | h3
      · have hp : unit_id u ∈ rest.map unit_id := by
          rw [← h3]
          exact List.mem_map.mpr ⟨primary, hmemR, rfl⟩
        exact h2c.1 hp
      · exact ih hmemR h2c.2 h3

/-- C2: with exactly one unit named as the build-time primary and
pairwise-distinct unit ids, `get_replica_set_upgrade_stack` returns the
primary's id at index 0 — the final processing position, processed last —
followed by the ids of all non-primary units in iteration order, and the
primary's id occurs exactly once in the stack. -/
theorem upgrade_stack_primary_last (units : List String) (primary : String)
    (h1 : units.count primary = 1)
    (h2 : (units.map unit_id).Nodup) :
    get_replica_set_upgrade_stack units primary =
      some (unit_id primary) ::
        ((units.filter fun u => u ≠ primary).map fun u => some (unit_id u)) ∧
    (get_replica_set_upgrade_stack units primary).count
      (some (unit_id primary)) = 1 := by
  have hmem : primary ∈ units := by
    by_contra hnm
    rw [List.count_eq_zero_of_not_mem hnm] at h1
    exact absurd h1 (by decide)
  have hchar : get_replica_set_upgrade_stack units primary =
      some (unit_id primary) ::
        ((units.filter fun u => u ≠ primary).map fun u => some (unit_id u)) := by
    unfold get_replica_set_upgrade_stack build_stack_fold
    rw [build_stack_fold_general]
    simp [hmem, List.map_map, Function.comp]
  refine ⟨hchar, ?_⟩
  rw [hchar]
  have hnotin := unit_id_notin_filtered units primary hmem h2
  have hnotin2 : some (unit_id primary) ∉
      (units.filter fun u => u ≠ primary).map fun u => some (unit_id u) := by
    intro hx
    obtain ⟨a, haf, hae⟩ := List.mem_map.mp hx
    exact hnotin (List.mem_map.mpr ⟨a, haf, Option.some.inj hae⟩)
  rw [List.count_cons, List.count_eq_zero_of_not_mem hnotin2]
  simp

/-- Witness for C2: in a two-unit replica set whose primary is `mongodb/0`,
the stack is the primary's id followed by the other unit's id. -/
theorem upgrade_stack_primary_last_witness :
    get_replica_set_upgrade_stack ["mongodb/1", "mongodb/0"] "mongodb/0" =
      some (unit_id "mongodb/0") ::
        ((["mongodb/1", "mongodb/0"].filter fun u => u ≠ "mongodb/0").map
          fun u => some (unit_id u)) :=
  (upgrade_stack_primary_last ["mongodb/1", "mongodb/0"] "mongodb/0"
    (by decide) (by decide)).1

end MongodbOperator
